import Mathlib

/-!
Verification of the Hillwind data-engineering repository: a shallow embedding
of `src/etl.py` (incremental clean/enrich/merge pipeline) and
`src/sql_analysis.py` (DuckDB analytics over the raw tables), together with
theorems settling the specification's claims about them.

Conventions of the embedding:
* Dates and timestamps are modelled as `Int` day numbers (days since the Unix
  epoch, via the standard civil-calendar conversion `daysFromCivil`), so that
  DuckDB's `DATEDIFF('day', a, b)` is `b - a` and `d + INTERVAL 1 DAY` is
  `d + 1`.
* A nullable column is an `Option`; a pandas `NaT`/`NaN` cell is `none`.
* DataFrames/relations are `List`s of per-table row structures; row order in a
  list is the row order of the frame.
* Monetary amounts and percentages are `ℚ` (DuckDB computes the spike/roster
  percentages in `DOUBLE`; every quantity the claims touch is exactly
  representable, so the rational model agrees with the floating computation
  there).
* File-system inputs (the CSV/JSON files) are passed to the embedded functions
  as explicit arguments; the two persisted state files (watermark, canonical
  parquet store) are the `EtlState` record, `none` meaning "file absent".
-/

/-- Days since 1970-01-01 of the Gregorian date `y-m-d` (Howard Hinnant's
civil-from-days algorithm, restricted to positive years, which is all the
repository's data uses). Used to model date values as integers. -/
def daysFromCivil (y m d : Nat) : Int :=
  let y' : Nat := if m ≤ 2 then y - 1 else y
  let era : Nat := y' / 400
  let yoe : Nat := y' - era * 400
  let mp : Nat := (m + 9) % 12
  let doy : Nat := (153 * mp + 2) / 5 + d - 1
  let doe : Nat := yoe * 365 + yoe / 4 - yoe / 100 + doy
  (era * 146097 + doe : Int) - 719468

/-- DuckDB `ROUND(x, 2)` modelled over `ℚ`: round half up to 2 decimal
places. (DuckDB rounds `DOUBLE`s half away from zero; every rounded quantity
in these analyses is non-negative on the claims' inputs, where the two
coincide, and none of the claims' concrete values is a half-way case.) -/
def round2 (q : ℚ) : ℚ := (Rat.floor (q * 100 + 1 / 2) : ℚ) / 100

/-! ## `sql_analysis.py` — common company-name mapping (lines 41-49) -/

/-- The static `company_name_mapping` CTE of `sql_analysis.py` (lines 41-49):
`(company_ein, company_name)` pairs. -/
def companyNameMapping : List (String × String) :=
  [("11-1111111", "Hillwinds Health"),
   ("22-2222222", "Summit Solutions"),
   ("33-3333333", "Peak Performers")]

/-! ## Task 1: Plan Gap Detection (`sql_analysis.py` lines 51-111)

The query partitions plan intervals by `(company_name, plan_type)`, sorts by
`(start_date, end_date)`, consolidates them into islands (a row starts a new
island when its `start_date` is not `≤` the previous row's `end_date + 1`),
and reports, for each pair of consecutive islands whose separation
`DATEDIFF('day', island_end, next_start)` exceeds 7, the row
`(gap_start = island_end + 1, gap_end = next_start - 1,
gap_length_days = DATEDIFF('day', gap_start, gap_end), carriers)`. -/

/-- One plan-coverage interval of a single `(company_name, plan_type)` group,
as produced by the `plans_clean` CTE: `start_date`/`end_date` cast to dates,
plus the carrier. -/
structure Ival where
  start_date : Int
  end_date : Int
  carrier : String
deriving DecidableEq, Repr

/-- One consolidated island of the `islands` CTE (lines 80-89):
`island_start = MIN(start_date)`, `island_end = MAX(end_date)`,
`carrier_during_island = MIN(carrier)` over the island's rows. -/
structure Island where
  island_start : Int
  island_end : Int
  carrier : String
deriving DecidableEq, Repr

/-- One output row of the gap query (lines 98-108), minus the company name
(which the full `planGaps` below re-attaches). -/
structure GapRow where
  gap_start : Int
  gap_end : Int
  gap_length_days : Int
  previous_carrier : String
  next_carrier : String
deriving DecidableEq, Repr

/-- SQL `MIN` over two `VARCHAR`s (lexicographic string order). -/
def minStr (a b : String) : String :=
  if compare a b = Ordering.gt then b else a

/-- The `ORDER BY start_date, end_date` as a boolean comparison on intervals
(the window order of the `deduped` CTE; ties beyond `(start_date, end_date)`
are unspecified in SQL and resolved here by input order, as insertion sort is
stable). -/
def ivalLe (a b : Ival) : Bool :=
  match compare a.start_date b.start_date with
  | Ordering.lt => true
  | Ordering.gt => false
  | Ordering.eq => a.end_date ≤ b.end_date

/-- Walk of the `deduped`/`islands` CTEs over the sorted rows of one group:
`prevEnd` is `LAG(end_date)` (the previous row's end date), `cur` the island
accumulated so far (`MIN start`, running `MAX end`, running `MIN carrier`).
A row with `start_date ≤ prevEnd + 1` (the `COALESCE`d `new_group = 0` case)
extends the current island, otherwise it closes it and opens a new one. -/
def islandsWalk (cur : Island) (prevEnd : Int) : List Ival → List Island
  | [] => [cur]
  | iv :: rest =>
    if iv.start_date ≤ prevEnd + 1 then
      islandsWalk ⟨cur.island_start, max cur.island_end iv.end_date,
                   minStr cur.carrier iv.carrier⟩ iv.end_date rest
    else
      cur :: islandsWalk ⟨iv.start_date, iv.end_date, iv.carrier⟩ iv.end_date rest

/-- Islands of one `(company_name, plan_type)` group: sort by
`(start_date, end_date)` and consolidate. For the first row the SQL
`COALESCE(LAG(end_date) + 1, start_date)` makes `new_group = 0`, so the walk
starts with the first row as the open island. -/
def islandsOf (l : List Ival) : List Island :=
  match List.insertionSort (fun a b => ivalLe a b = true) l with
  | [] => []
  | iv :: rest => islandsWalk ⟨iv.start_date, iv.end_date, iv.carrier⟩ iv.end_date rest

/-- The reported row for the gap between consecutive islands `a` and `b`
(lines 98-104): `gap_start = island_end + 1 day`,
`gap_end = next_start - 1 day`,
`gap_length_days = DATEDIFF('day', gap_start, gap_end) = gap_end - gap_start`. -/
def gapBetween (a b : Island) : GapRow :=
  ⟨a.island_end + 1, b.island_start - 1,
   (b.island_start - 1) - (a.island_end + 1), a.carrier, b.carrier⟩

/-- The `with_next` CTE plus the final `SELECT`'s `WHERE` (lines 91-107): each
island is paired with its successor (`LEAD` over `ORDER BY island_start`; the
islands list is already in that order), and the pair is reported when
`DATEDIFF('day', island_end, next_start) > 7`. -/
def gapsFromIslands : List Island → List GapRow
  | a :: b :: rest =>
    (if b.island_start - a.island_end > 7 then [gapBetween a b] else []) ++
      gapsFromIslands (b :: rest)
  | _ => []

/-- Gap report of a single `(company_name, plan_type)` group. -/
def planGapsGroup (l : List Ival) : List GapRow :=
  gapsFromIslands (islandsOf l)

/-- One row of `plans_raw.csv` as the analytics engine reads it
(`read_csv_auto`). The `plans_clean` CTE keeps only rows whose `start_date`
is non-NULL; the modelled fragment assumes `end_date` parses (every plan row
the claims touch has both dates). -/
structure PlanRecord where
  company_ein : String
  plan_type : String
  carrier_name : String
  start_date : Option Int
  end_date : Int
deriving DecidableEq, Repr

/-- The `plans_clean` rows of one `(company_name, plan_type)` group: the join
with `company_name_mapping` on `company_ein`, the `WHERE start_date IS NOT
NULL` filter, and the restriction to the group's key. -/
def plansCleanGroup (rows : List PlanRecord) (name ptype : String) : List Ival :=
  rows.filterMap (fun p =>
    match p.start_date, companyNameMapping.find? (fun q => q.1 = p.company_ein) with
    | some s, some q => if q.2 = name ∧ p.plan_type = ptype
        then some ⟨s, p.end_date, p.carrier_name⟩ else none
    | _, _ => none)

/-- The full plan-gap report: for every `(company_name, plan_type)` partition,
the gaps of that group's islands, tagged with the company name (`plan_type`
is not among the query's output columns). Partitions are enumerated in
mapping order and distinct-plan-type order; the query's final `ORDER BY` is
presentational and not relied on by any claim. -/
def planGaps (rows : List PlanRecord) : List (String × GapRow) :=
  (companyNameMapping.map (fun q => q.2)).flatMap (fun name =>
    ((rows.map (fun p => p.plan_type)).dedup).flatMap (fun ptype =>
      (planGapsGroup (plansCleanGroup rows name ptype)).map (fun g => (name, g))))

/-! ## Task 2: Claims Cost Spike (`sql_analysis.py` lines 113-180)

Claims are joined to the company mapping, summed per `(company, service_date)`,
given a rolling sum over `ROWS BETWEEN 89 PRECEDING AND CURRENT ROW` ordered
by `service_date`, and each rolling sum is compared to `LAG(rolling, 1)` (the
previous present service date's rolling sum). The final `SELECT` keeps rows
with `prev_90d_cost IS NOT NULL AND prev_90d_cost > 0 AND
(current - prev) / prev > 2.0` and outputs
`pct_change = ROUND((current - prev) / prev * 100, 2)`. -/

/-- One row of `claims_raw.csv` as the analytics engine reads it. -/
structure ClaimRecord where
  company_ein : String
  service_date : Int
  amount : ℚ
deriving DecidableEq, Repr

/-- One output row of the spike query (lines 165-177), minus the company name
(re-attached by `claimSpikes`). -/
structure SpikeRow where
  window_start : Int
  window_end : Int
  prev_90d_cost : ℚ
  current_90d_cost : ℚ
  pct_change : ℚ
deriving DecidableEq, Repr

/-- The company name a claim row joins to (`none`, i.e. dropped by the inner
join, when its EIN is not in the mapping). -/
def claimCompany (c : ClaimRecord) : Option String :=
  (companyNameMapping.find? (fun q => q.1 = c.company_ein)).map (fun q => q.2)

/-- The `SUM(claim_cost)` of one company's claims on one service date
(the `daily_costs` CTE, lines 127-135). -/
def dailyTotal (claims : List ClaimRecord) (name : String) (d : Int) : ℚ :=
  ((claims.filter (fun c => claimCompany c = some name ∧ c.service_date = d)).map
    (fun c => c.amount)).sum

/-- The distinct service dates of one company's claims, ascending — the
per-partition row order of the window functions. -/
def companyDates (claims : List ClaimRecord) (name : String) : List Int :=
  List.insertionSort (fun a b => a ≤ b)
    (((claims.filter (fun c => claimCompany c = some name)).map
      (fun c => c.service_date)).dedup)

/-- The `daily_costs` rows of one company, in service-date order. -/
def companyDaily (claims : List ClaimRecord) (name : String) : List (Int × ℚ) :=
  (companyDates claims name).map (fun d => (d, dailyTotal claims name d))

/-- The `rolling_90d` CTE (lines 137-148): each row's rolling sum is the sum
of its own daily total and the 89 preceding rows' (`ROWS BETWEEN 89 PRECEDING
AND CURRENT ROW` — 90 rows, not 90 calendar days, when dates are sparse). -/
def rollingSeries (l : List (Int × ℚ)) : List (Int × ℚ) :=
  l.enum.map (fun p =>
    (p.2.1, (((l.map (fun q => q.2)).take (p.1 + 1)).drop (p.1 - 89)).sum))

/-- The reported row built from a `(previous row, current row)` pair of the
rolling series: `window_end = service_date`, `window_start = service_date -
89 days`, and `pct_change = ROUND((current - prev) / prev * 100, 2)`. -/
def spikeOf (p : (Int × ℚ) × (Int × ℚ)) : SpikeRow :=
  ⟨p.2.1 - 89, p.2.1, p.1.2, p.2.2, round2 ((p.2.2 - p.1.2) / p.1.2 * 100)⟩

/-- The `rolling_windows` CTE plus the final `WHERE` (lines 150-177): `LAG`
pairs each row with its predecessor (the first row's `prev_90d_cost` is NULL
and is excluded by `prev_90d_cost IS NOT NULL`); a pair is reported when the
previous rolling sum is strictly positive and the relative increase exceeds
`2.0`. -/
def spikeRows : List (Int × ℚ) → List SpikeRow
  | a :: b :: rest =>
    (if a.2 > 0 ∧ (b.2 - a.2) / a.2 > 2 then [spikeOf (a, b)] else []) ++
      spikeRows (b :: rest)
  | _ => []

/-- The full spike report, partitioned by company (the final `ORDER BY` is
presentational and not relied on by any claim). -/
def claimSpikes (claims : List ClaimRecord) : List (String × SpikeRow) :=
  companyNameMapping.flatMap (fun q =>
    (spikeRows (rollingSeries (companyDaily claims q.2))).map (fun r => (q.2, r)))

/-! ## `etl.py` — data model of the pipeline -/

/-- One row of `employees_raw.csv` as `ingest_data` parses it (line 124:
`parse_dates=['start_date']`; a failed parse or empty cell is `none`).
Per the code's own comment (line 163) the file has no `last_updated`
column, so the `date_cols` loop of `clean_data` touches only `start_date`
and `end_date`. -/
structure EmpRow where
  person_id : String
  full_name : String
  title : Option String
  email : Option String
  company_ein : Option String
  start_date : Option Int
  end_date : Option Int
  notes : Option String
deriving DecidableEq, Repr

/-- A row of the frame inside `clean_data`: the employee columns plus the
`row_id` traceability key (line 159 copies the frame's index, which is the
row's position in the ingested frame). -/
structure CleanRow extends EmpRow where
  row_id : Nat
deriving DecidableEq, Repr

/-- One row of the validation-error ledger (`row_id, field, error_reason`). -/
structure ValErr where
  row_id : Nat
  field : String
  error_reason : String
deriving DecidableEq, Repr

/-- One row of `plans_raw.csv` as the pipeline reads it (line 126: no
`parse_dates`, no watermark filter; `run_etl` only ever inspects whether
this frame is empty). -/
structure PlanRow where
  company_ein : String
  plan_type : String
  carrier_name : String
  start_date : Option Int
  end_date : Option Int
deriving DecidableEq, Repr

/-- One row of `claims_raw.csv` as the pipeline reads it (line 125:
`parse_dates=['service_date']`); only the timestamp column matters to
`run_etl`, which filters on it and then never touches the frame again. -/
structure ClaimRow where
  service_date : Option Int
deriving DecidableEq, Repr

/-! ### Email validation (`clean_data` lines 169-182)

`clean_df['email'].str.match(r, na=True)` with
`r = ^[a-zA-Z0-9._%+-]+@[a-zA-Z0-9.-]+\.[a-zA-Z]\x7b2,\x7d$`.
Because neither character class contains `@`, the regex matches iff the
string splits at a unique `@` into a non-empty local part over
`[a-zA-Z0-9._%+-]`, and a domain that ends in `.` followed by at least two
letters, with a non-empty `[a-zA-Z0-9.-]` run before that last dot.
`na=True` makes a missing email count as valid. -/

/-- Python's `str.split(sep)` for a one-character separator, on the string's
character list: `splitOnChar '@' "a@b@c"` is `["a", "b", "c"]`, and a string
without the separator yields the one-element list. -/
def splitOnChar (sep : Char) : List Char → List (List Char)
  | [] => [[]]
  | c :: cs =>
    match splitOnChar sep cs with
    | [] => [[c]]
    | h :: t => if c = sep then [] :: h :: t else (c :: h) :: t

/-- The regex class `[a-zA-Z0-9._%+-]` (Lean's `Char.isAlphanum` is
ASCII-only, matching the regex classes). -/
def localChar (c : Char) : Bool :=
  c.isAlphanum || c = '.' || c = '_' || c = '%' || c = '+' || c = '-'

/-- The regex class `[a-zA-Z0-9.-]`. -/
def domainChar (c : Char) : Bool :=
  c.isAlphanum || c = '.' || c = '-'

/-- Matches the regex fragment `[a-zA-Z0-9.-]+\.[a-zA-Z]\x7b2,\x7d` against a
whole domain: the TLD must be everything after the last dot (a dot may not
occur inside `[a-zA-Z]+`), at least 2 letters, with a non-empty class run
before that dot. -/
def emailDomainOk (d : List Char) : Bool :=
  let tldRev := d.reverse.takeWhile (fun c => c ≠ '.')
  if tldRev.length = d.length then false
  else
    let pre := d.take (d.length - tldRev.length - 1)
    (!pre.isEmpty) && pre.all domainChar && decide (2 ≤ tldRev.length) &&
      tldRev.all Char.isAlpha

/-- Full-string match of the email regex of line 170: exactly one `@` (the
classes exclude it), a non-empty local part over its class, and a valid
domain. -/
def emailMatch (s : String) : Bool :=
  match splitOnChar '@' s.toList with
  | [lpart, dpart] =>
    (!lpart.isEmpty) && lpart.all localChar && emailDomainOk dpart
  | _ => false

/-- The validity the email filter of lines 171-182 actually applies:
`na=True` means a missing email passes. -/
def emailOk : Option String → Bool
  | none => true
  | some e => emailMatch e

/-! ### The cleaning stages (`clean_data` lines 140-223) -/

/-- The `drop_duplicates(subset=['person_id', 'email', 'start_date'])` key
(line 164). -/
def cleanKey (r : CleanRow) : String × Option String × Option Int :=
  (r.person_id, r.email, r.start_date)

/-- The `drop_duplicates` keeps the first row bearing each key (pandas default
`keep='first'`); `seen` accumulates the keys already kept. -/
def dropDuplicatesAux (seen : List (String × Option String × Option Int)) :
    List CleanRow → List CleanRow
  | [] => []
  | r :: rs =>
    if cleanKey r ∈ seen then dropDuplicatesAux seen rs
    else r :: dropDuplicatesAux (cleanKey r :: seen) rs

/-- Stage 1 of `clean_data`: deduplication on `(person_id, email,
start_date)` (lines 161-167). -/
def dropDuplicates (rs : List CleanRow) : List CleanRow :=
  dropDuplicatesAux [] rs

/-- The `sort_values(['person_id', 'start_date'])` key order on the missing
marker: pandas puts `NaT` last (`na_position='last'`). (No `none` start date
actually reaches the sort — stage 3 drops them.) -/
def optLeNaLast : Option Int → Option Int → Bool
  | none, none => true
  | none, some _ => false
  | some _, none => true
  | some a, some b => a ≤ b

/-- The `sort_values(['person_id', 'start_date'])` comparison (line 205). -/
def rowLe (a b : CleanRow) : Bool :=
  match compare a.person_id b.person_id with
  | Ordering.lt => true
  | Ordering.gt => false
  | Ordering.eq => optLeNaLast a.start_date b.start_date

/-- Line 205's sort. (pandas' default quicksort is unstable, so tie order is
unspecified; stable insertion sort is one valid refinement.) -/
def sortRows (rs : List CleanRow) : List CleanRow :=
  List.insertionSort (fun a b => rowLe a b = true) rs

/-- Stage 4's `groupby('person_id')['title'].transform(lambda x:
x.ffill().bfill())` (line 207): a row keeps its own title if present;
otherwise it takes the nearest preceding present title of the same
`person_id` (forward fill), otherwise the nearest following one (backward
fill reaches only positions the forward fill left empty, i.e. rows with no
preceding present title). -/
def fillTitlesFB (rs : List CleanRow) : List CleanRow :=
  rs.enum.map (fun p =>
    let mine := rs.enum.filter (fun q => q.2.person_id = p.2.person_id)
    let prior := ((mine.filter (fun q => q.1 < p.1)).reverse).findSome?
      (fun q => q.2.title)
    let later := (mine.filter (fun q => p.1 < q.1)).findSome? (fun q => q.2.title)
    { p.2 with title := (p.2.title.orElse (fun _ => prior)).orElse (fun _ => later) })

/-- Line 219's `fillna('Unknown')` on `title`. -/
def fillUnknown (rs : List CleanRow) : List CleanRow :=
  rs.map (fun r => { r with title := some (r.title.getD "Unknown") })

/-- The `clean_data` (lines 140-223). Stages, in source order: empty early
return; `row_id` assignment from the index; deduplication; email validation
(invalid rows go to the ledger and are dropped); date validation
(`start_date`, then `end_date` over the survivors — a missing/unparseable
value is flagged, and rows without a `start_date` are dropped; `end_date` may
stay missing); sort and title forward/backward fill; still-missing titles are
flagged and set to `"Unknown"`. The dataframe-level `NaT`/`NaN` rendering
inside the ledger's message strings is simplified to fixed text; no claim
inspects it. Returns (clean frame, error ledger); the run-metrics dictionary
is not modelled (no claim mentions it). -/
def clean_data (df : List EmpRow) : List CleanRow × List ValErr :=
  if df.isEmpty then ([], [])
  else
    let rows := df.enum.map (fun p => { toEmpRow := p.2, row_id := p.1 })
    let dd := dropDuplicates rows
    let emailErrs := (dd.filter (fun r => !(emailOk r.email))).map (fun r =>
      (⟨r.row_id, "email", "Invalid email format: " ++ r.email.getD "nan"⟩ : ValErr))
    let v := dd.filter (fun r => emailOk r.email)
    let startErrs := (v.filter (fun r => r.start_date.isNone)).map (fun r =>
      (⟨r.row_id, "start_date", "Invalid date format: NaT"⟩ : ValErr))
    let v1 := v.filter (fun r => r.start_date.isSome)
    let endErrs := (v1.filter (fun r => r.end_date.isNone)).map (fun r =>
      (⟨r.row_id, "end_date", "Invalid date format: NaT"⟩ : ValErr))
    let fb := fillTitlesFB (sortRows v1)
    let titleErrs := (fb.filter (fun r => r.title.isNone)).map (fun r =>
      (⟨r.row_id, "title", "Missing title - no value to forward/backward fill"⟩ : ValErr))
    (fillUnknown fb, emailErrs ++ startErrs ++ endErrs ++ titleErrs)

/-! ### Enrichment (`enrich_data` lines 225-323) -/

/-- The `{personal_email, phone_number}` record of the mock enrichment
source. -/
structure ApiResult where
  personal_email : Option String
  phone_number : Option String
deriving DecidableEq, Repr

/-- A row after enrichment and the `FINAL_COLUMNS` projection of lines
316-321: the employee columns (with the possibly-inferred EIN), `row_id`, and
the two enrichment fields. `end_date` is not in `FINAL_COLUMNS`, so the
projection drops it. -/
structure EnrichedRow where
  person_id : String
  full_name : String
  title : Option String
  email : Option String
  company_ein : Option String
  start_date : Option Int
  notes : Option String
  row_id : Nat
  personal_email : Option String
  phone_number : Option String
deriving DecidableEq, Repr

/-- The `get_ein` (lines 251-268): keep a present EIN; otherwise take the text
after the first `@` of the email and look it up in `company_lookup.json`
(passed here as an association list). A missing or `@`-less email, an unknown
domain, or a Python-falsy (empty) mapped value yields `None`. -/
def inferEin (lookup : List (String × String)) (r : CleanRow) : Option String :=
  match r.company_ein with
  | some e => some e
  | none =>
    match r.email with
    | none => none
    | some em =>
      if em.toList.contains '@' then
        match (splitOnChar '@' em.toList)[1]? with
        | some dom =>
          (lookup.find? (fun q => q.1 = String.mk dom)).bind (fun q =>
            if q.2 = "" then none else some q.2)
        | none => none
      else none

/-- The value `get_enrichment_data` (lines 282-306) returns for a key: the
mock-source entry when present, else the all-null "404" default. The in-run
cache never changes the returned value (the source is a pure lookup); how
often the source is consulted is modelled by `sourceQueries` below. The
retry loop cannot iterate more than once here because the mock lookup cannot
raise. -/
def apiResultFor (apiData : List (String × ApiResult)) (pid : String) : ApiResult :=
  ((apiData.find? (fun q => q.1 = pid)).map (fun q => q.2)).getD ⟨none, none⟩

/-- The `enrich_data` (lines 225-323): EIN inference, per-row enrichment lookup
keyed by `person_id`, and the `FINAL_COLUMNS` projection (realized by the
`EnrichedRow` type, which has exactly those columns). An empty input frame is
returned unchanged (line 235) — the column-level consequence of that early
return is modelled by `enrichColumns` below. -/
def enrich_data (lookup : List (String × String)) (apiData : List (String × ApiResult))
    (rows : List CleanRow) : List EnrichedRow :=
  rows.map (fun r =>
    ⟨r.person_id, r.full_name, r.title, r.email, inferEin lookup r, r.start_date,
     r.notes, r.row_id, (apiResultFor apiData r.person_id).personal_email,
     (apiResultFor apiData r.person_id).phone_number⟩)

/-- Whether the in-run `api_cache` holds a key (line 284's
`person_id in api_cache`). -/
def cachedIn (cache : List (String × ApiResult)) (pid : String) : Bool :=
  (cache.find? (fun q => q.1 = pid)).isSome

/-- The sequence of consultations of the mock source (`person_id in
api_mock_data`, line 292) made while enriching `pids` in order, starting from
`cache`: a cached key is answered without consulting the source; otherwise
the source is consulted once, and the result is cached only in the found
case — the not-found branch (lines 298-300) returns the default without
populating the cache. -/
def sourceQueries (apiData : List (String × ApiResult)) :
    List (String × ApiResult) → List String → List String
  | _, [] => []
  | cache, p :: ps =>
    if cachedIn cache p then sourceQueries apiData cache ps
    else
      match apiData.find? (fun q => q.1 = p) with
      | some q => p :: sourceQueries apiData ((p, q.2) :: cache) ps
      | none => p :: sourceQueries apiData cache ps

/-! ### Store merge (`save_outputs` lines 325-377) -/

/-- The upsert key of the canonical store:
`drop_duplicates(subset=['person_id', 'start_date'])` (line 358). -/
def storeKey (r : EnrichedRow) : String × Option Int :=
  (r.person_id, r.start_date)

/-- The `drop_duplicates(..., keep='last')`: a row survives iff no later row
bears its key; surviving rows keep their relative order. -/
def dropDupKeepLast : List EnrichedRow → List EnrichedRow
  | [] => []
  | r :: rs =>
    if rs.any (fun y => storeKey y = storeKey r) then dropDupKeepLast rs
    else r :: dropDupKeepLast rs

/-- The merge branch of `save_outputs` (lines 337-361): concatenate the
existing store and the new rows in that order, then deduplicate on
`(person_id, start_date)` keeping the last occurrence. (The column-alignment
loop and canonical column reorder of lines 340-357 are the identity at row
level here, both sides being `EnrichedRow`s; their column-level effect is
modelled by `mergedColumns` below.) -/
def merge_store (existing new : List EnrichedRow) : List EnrichedRow :=
  dropDupKeepLast (existing ++ new)

/-- Row-level effect of `save_outputs` on the canonical store (lines
325-377): merge when the store exists and the new frame is non-empty; keep
the store untouched when the new frame is empty; otherwise the new frame
(even empty) becomes the store. The validation-error CSV side effect carries
no claim and is not modelled. -/
def save_outputs (store : Option (List EnrichedRow)) (clean : List EnrichedRow) :
    List EnrichedRow :=
  match store with
  | some ex => if clean.isEmpty then ex else merge_store ex clean
  | none => clean

/-! ### The run (`run_etl` lines 41-102, watermark lines 106-117,
`ingest_data` lines 119-138) -/

/-- The `ingest_data` (lines 119-138): employees are filtered on
`start_date > watermark` (line 129), claims on `service_date > watermark`
(line 131); a `NaT` timestamp compares false and is dropped. `plans_df` is
returned with no watermark filter at all (lines 126, 138). -/
def ingest_data (wm : Int) (employees : List EmpRow) (plans : List PlanRow)
    (claims : List ClaimRow) : List EmpRow × List PlanRow × List ClaimRow :=
  (employees.filter (fun e => match e.start_date with
     | some d => decide (wm < d)
     | none => false),
   plans,
   claims.filter (fun c => match c.service_date with
     | some d => decide (wm < d)
     | none => false))

/-- The two files `run_etl` persists between runs: `watermark.txt` (`none` =
absent) and the canonical parquet store (`none` = absent). -/
structure EtlState where
  watermark : Option Int
  store : Option (List EnrichedRow)
deriving DecidableEq, Repr

/-- The sentinel of `get_high_water_mark`: `'1900-01-01T00:00:00'` for a missing
watermark file (lines 106-112). -/
def sentinelWatermark : Int := daysFromCivil 1900 1 1

/-- The `get_high_water_mark` (lines 106-112). -/
def get_high_water_mark (st : EtlState) : Int :=
  st.watermark.getD sentinelWatermark

/-- The `run_etl` (lines 41-102) as a state transition on the persisted files,
with the input CSVs/JSONs and the wall clock (`now`, the value
`update_high_water_mark` would write at line 117) as explicit arguments.
If all three ingested frames are empty the run returns without touching the
store or the watermark (lines 67-76); otherwise it cleans the employee frame,
enriches it, saves the store, and overwrites the watermark with `now`
(line 95). Logging and the metrics summary are not modelled. -/
def run_etl (now : Int) (lookup : List (String × String))
    (apiData : List (String × ApiResult)) (employees : List EmpRow)
    (plans : List PlanRow) (claims : List ClaimRow) (st : EtlState) : EtlState :=
  let wm := get_high_water_mark st
  let t := ingest_data wm employees plans claims
  if t.1.isEmpty ∧ t.2.2.isEmpty ∧ t.2.1.isEmpty then st
  else
    let cl := clean_data t.1
    let enriched := enrich_data lookup apiData cl.1
    { watermark := some now, store := some (save_outputs st.store enriched) }

/-! ### Column-level model of the persisted store schema

Claim C10 is about which *columns* the persisted parquet can contain.  Row
contents are irrelevant, so the schema path of the code is modelled as a
transition on column-name lists. -/

/-- The `FINAL_COLUMNS` of `enrich_data` (lines 317-320). -/
def FINAL_COLUMNS : List String :=
  ["person_id", "full_name", "title", "email", "company_ein", "start_date",
   "notes", "row_id", "personal_email", "phone_number"]

/-- The `CANONICAL_COLUMNS` of `save_outputs` (lines 349-352) — the same ten
names. -/
def CANONICAL_COLUMNS : List String :=
  ["person_id", "full_name", "title", "email", "company_ein", "start_date",
   "notes", "row_id", "personal_email", "phone_number"]

/-- The columns of the frame `clean_data` hands to `enrich_data` when rows
survive: the raw employee columns plus `row_id`. -/
def cleanedFrameColumns : List String :=
  ["person_id", "full_name", "title", "email", "company_ein", "start_date",
   "end_date", "notes", "row_id"]

/-- Column-level effect of `enrich_data` on a frame with columns `cols`:
an empty frame is returned unchanged (line 235); otherwise the enrichment
fields are concatenated on (line 313) and the frame is reindexed to
`[c for c in FINAL_COLUMNS if c in final_df.columns]` (line 321). -/
def enrichColumns (isEmpty : Bool) (cols : List String) : List String :=
  if isEmpty then cols
  else FINAL_COLUMNS.filter (fun c => c ∈ cols ++ ["personal_email", "phone_number"])

/-- The `all_columns = list(set(existing) | set(clean))` (line 341). Python's set
iteration order is unspecified; only membership in this list matters below. -/
def unionColumns (ex new : List String) : List String :=
  ex ++ new.filter (fun c => ¬ c ∈ ex)

/-- Column-level effect of the merge branch (lines 340-357): after aligning
both sides to the union, the merged frame is reindexed to
`[c for c in CANONICAL_COLUMNS + extras if c in merged_df.columns]`. -/
def mergedColumns (ex new : List String) : List String :=
  (CANONICAL_COLUMNS ++
    (unionColumns ex new).filter (fun c => ¬ c ∈ CANONICAL_COLUMNS)).filter
    (fun c => c ∈ unionColumns ex new)

/-- Column-level effect of `save_outputs` on the persisted store: merge when
the store exists and the frame is non-empty; an existing store survives an
empty frame unchanged (line 369); with no store yet, the frame's columns —
empty frame or not (lines 364, 374) — become the store's. -/
def saveColumns (store : Option (List String)) (isEmpty : Bool)
    (cols : List String) : Option (List String) :=
  match store with
  | some ex => if isEmpty then some ex else some (mergedColumns ex cols)
  | none => some cols

/-- The store's columns after a sequence of runs that reach `save_outputs`,
each run given as (was the cleaned frame empty?, the cleaned frame's
columns), starting with no store file. -/
def pipelineColumns (runs : List (Bool × List String)) : Option (List String) :=
  runs.foldl (fun st r => saveColumns st r.1 (enrichColumns r.1 r.2)) none

/-! ## Task 3: Employee Roster Mismatch (`sql_analysis.py` lines 182-233) -/

/-- The static `company_expected_counts` CTE (lines 186-194). -/
def rosterExpected : List (String × Int) :=
  [("Hillwinds Health", 60), ("Summit Solutions", 45), ("Peak Performers", 40)]

/-- The company name an employee row joins to (lines 196-204's join of
`employees_raw` with the mapping on `company_ein`). -/
def employeeCompany (e : EmpRow) : Option String :=
  e.company_ein.bind (fun k =>
    (companyNameMapping.find? (fun q => q.1 = k)).map (fun q => q.2))

/-- The `COUNT(DISTINCT e.person_id)` for one company (lines 196-204). -/
def observedEmployees (emps : List EmpRow) (name : String) : Int :=
  (((emps.filter (fun e => employeeCompany e = some name)).map
    (fun e => e.person_id)).dedup).length

/-- One output row of the roster query (lines 218-230). -/
structure RosterRow where
  company_name : String
  expected : Int
  observed : Int
  pct_diff : ℚ
  severity : String
deriving DecidableEq, Repr

/-- The severity `CASE` of lines 223-228. -/
def severityOf (p : ℚ) : String :=
  if p > 100 then "Critical"
  else if p > 50 then "High"
  else if p > 20 then "Medium"
  else "Low"

/-- The roster-mismatch report (lines 183-233): for each company of the
expected table that also has observed employees (the inner join — a company
with no matching employee rows has no `observed_employee_counts` row),
output expected, observed, `pct_diff = ROUND(ABS(observed - expected) * 100.0
/ expected, 2)` and its severity class. The final `ORDER BY pct_diff DESC` is
presentational and not relied on by any claim. -/
def rosterMismatch (emps : List EmpRow) : List RosterRow :=
  rosterExpected.filterMap (fun q =>
    let o : Int := observedEmployees emps q.1
    if o = 0 then none
    else
      let pd : ℚ := round2 (|(o : ℚ) - (q.2 : ℚ)| * 100 / (q.2 : ℚ))
      some ⟨q.1, q.2, o, pd, severityOf pd⟩)

/-! ## Concrete inputs used by the counterexamples and witnesses -/

/-- The mock enrichment source used by the C2 witness. -/
def apiW : List (String × ApiResult) := [("p1", ⟨some "e@x.co", none⟩)]

/-- A raw employee row with a missing email but valid `start_date` and
`title` (C3 counterexample). -/
def c3Row : EmpRow :=
  ⟨"p1", "Ann Lee", some "Engineer", none, some "11-1111111", some 10, none, none⟩

/-- A raw employee row with a well-formed email and no title (C3 witness). -/
def c3GoodRow : EmpRow :=
  ⟨"p2", "Bo Ray", none, some "bo@hillwinds.com", none, some 10, none, none⟩

/-- The row `clean_data` produces from `c3GoodRow`. -/
def c3GoodOut : CleanRow :=
  ⟨⟨"p2", "Bo Ray", some "Unknown", some "bo@hillwinds.com", none, some 10, none, none⟩, 0⟩

/-- A plan row whose dates all precede the C4 watermark of 100. -/
def c4Plan : PlanRow := ⟨"11-1111111", "Medical", "CarrierA", some 40, some 70⟩

/-- C1 failing input: committed watermark 100, a non-empty store. -/
def c1Store : List EnrichedRow :=
  [⟨"p1", "Ann Lee", some "Engineer", some "ann@hillwinds.com", some "11-1111111",
    some 50, none, 0, none, none⟩]

/-- C1 failing input: the persisted state before the stale re-run. -/
def c1State : EtlState := ⟨some 100, some c1Store⟩

/-- C1 failing input: every employee `start_date` is at or before the
watermark 100. -/
def c1Employees : List EmpRow :=
  [⟨"p1", "Ann Lee", some "Engineer", some "ann@hillwinds.com", some "11-1111111",
    some 50, none, none⟩]

/-- C1 failing input: a non-empty plans table (never watermark-filtered). -/
def c1Plans : List PlanRow := [⟨"11-1111111", "Medical", "CarrierA", some 40, some 70⟩]

/-- C1 failing input: every claim `service_date` is at or before the
watermark 100. -/
def c1Claims : List ClaimRow := [⟨some 80⟩]

/-- C7 witness: the stored row. -/
def c7Old : EnrichedRow :=
  ⟨"p1", "Ann Lee", some "Engineer", some "ann@hillwinds.com", some "11-1111111",
   some 50, none, 0, none, none⟩

/-- C7 witness: the incoming row — same `(person_id, start_date)` key, an
updated title. -/
def c7New : EnrichedRow :=
  ⟨"p1", "Ann Lee", some "Senior Engineer", some "ann@hillwinds.com",
   some "11-1111111", some 50, none, 0, none, none⟩

/-- C9 witness: 130 employees with distinct `person_id`s, all joined to
Hillwinds Health. -/
def c9Employees : List EmpRow :=
  (List.range 130).map (fun i =>
    ⟨toString i, "E", none, none, some "11-1111111", some 0, none, none⟩)

/-! # Theorems -/

/-! ## Helper lemmas -/

/-- Structural form of the gap report: each consecutive pair of islands is
kept exactly when the next island starts more than 7 days after the previous
one ends. -/
theorem gapsFromIslands_eq_filterMap (isl : List Island) :
    gapsFromIslands isl =
      (isl.zip isl.tail).filterMap (fun p =>
        if p.2.island_start - p.1.island_end > 7
        then some (gapBetween p.1 p.2) else none) := by
  induction isl with
  | nil => rfl
  | cons a tl ih =>
    cases tl with
    | nil => rfl
    | cons b rest =>
      rw [show gapsFromIslands (a :: b :: rest) =
            (if b.island_start - a.island_end > 7 then [gapBetween a b] else []) ++
              gapsFromIslands (b :: rest) from rfl, ih]
      by_cases h : b.island_start - a.island_end > 7 <;>
        simp [h, List.filterMap_cons]

/-- Structural form of the spike report: each consecutive pair of rolling-sum
rows is kept exactly when the spike condition holds of it. -/
theorem spikeRows_eq_filterMap (l : List (Int × ℚ)) :
    spikeRows l =
      (l.zip l.tail).filterMap (fun p =>
        if p.1.2 > 0 ∧ (p.2.2 - p.1.2) / p.1.2 > 2 then some (spikeOf p) else none) := by
  induction l with
  | nil => rfl
  | cons a tl ih =>
    cases tl with
    | nil => rfl
    | cons b rest =>
      rw [show spikeRows (a :: b :: rest) =
            (if a.2 > 0 ∧ (b.2 - a.2) / a.2 > 2 then [spikeOf (a, b)] else []) ++
              spikeRows (b :: rest) from rfl, ih]
      by_cases h : a.2 > 0 ∧ (b.2 - a.2) / a.2 > 2 <;>
        simp [h, List.filterMap_cons]

/-! ## C5 -/

/-- C5. The testable-property scenario of the spec: intervals
`[2023-01-01, 2023-01-31]` and `[2023-02-20, 2023-03-01]` in one
organization/plan-type group. The query reports exactly one gap with
boundaries `2023-02-01 .. 2023-02-19`, but its `gap_length_days` output is
`DATEDIFF('day', gap_start, gap_end) = 18` — not the 19 days actually spanned
(inclusively) by those boundaries, which is what the claim states. Two
intervals separated by 5 uncovered days yield no reported gap, as claimed. -/
theorem plan_gap_example_evaluation :
    (planGaps
      [⟨"11-1111111", "Medical", "CarrierA", some (daysFromCivil 2023 1 1), daysFromCivil 2023 1 31⟩,
       ⟨"11-1111111", "Medical", "CarrierA", some (daysFromCivil 2023 2 20), daysFromCivil 2023 3 1⟩]
    = [("Hillwinds Health",
        ⟨daysFromCivil 2023 2 1, daysFromCivil 2023 2 19, 18, "CarrierA", "CarrierA"⟩)])
    ∧ ((18 : Int) ≠ 19)
    ∧ (daysFromCivil 2023 2 19 - daysFromCivil 2023 2 1 + 1 = 19)
    ∧ (planGaps
        [⟨"11-1111111", "Medical", "CarrierA", some (daysFromCivil 2023 1 1), daysFromCivil 2023 1 31⟩,
         ⟨"11-1111111", "Medical", "CarrierA", some (daysFromCivil 2023 2 6), daysFromCivil 2023 3 1⟩]
       = []) := by
  refine ⟨by decide, by decide, by decide, by decide⟩

/-! ## C6 -/

/-- C6 counterexample. A gap of exactly 7 uncovered days IS reported:
islands end on day 10 and resume on day 18, leaving days 11..17 uncovered
(7 days, `gap_end - gap_start + 1 = 7`), and the query emits the gap because
its filter is `next_start - island_end > 7` (here `18 - 10 = 8 > 7`). This
refutes "a gap of exactly 7 days or fewer is never reported". -/
theorem plan_gap_seven_day_reported :
    planGapsGroup [⟨0, 10, "A"⟩, ⟨18, 25, "A"⟩] = [⟨11, 17, 6, "A", "A"⟩]
    ∧ ((17 : Int) - 11 + 1 = 7) := by
  exact ⟨by decide, by decide⟩

/-- C6 (amended). A gap between consecutive islands of one group is reported
iff `next_island_start - island_end > 7`, which is equivalent to the gap's
uncovered span (`gap_end - gap_start + 1` days) being at least 7 days — not
to it being strictly longer than 7 days. -/
theorem plan_gap_threshold_semantics :
    (∀ isl : List Island, ∀ g : GapRow,
      g ∈ gapsFromIslands isl ↔
        ∃ p, p ∈ isl.zip isl.tail ∧ p.2.island_start - p.1.island_end > 7 ∧
          g = gapBetween p.1 p.2)
    ∧ (∀ a b : Island,
        (b.island_start - a.island_end > 7 ↔
          (gapBetween a b).gap_end - (gapBetween a b).gap_start + 1 ≥ 7)) := by
  constructor
  · intro isl g
    rw [gapsFromIslands_eq_filterMap]
    simp only [List.mem_filterMap]
    constructor
    · rintro ⟨p, hp, hf⟩
      by_cases h : p.2.island_start - p.1.island_end > 7
      · refine ⟨p, hp, h, ?_⟩
        simp only [h, if_pos] at hf
        exact (Option.some.inj hf).symm
      · simp [h] at hf
    · rintro ⟨p, hp, h, rfl⟩
      exact ⟨p, hp, by simp [h]⟩
  · intro a b
    simp only [gapBetween]
    omega

/-! ## C8 -/

/-- C8. A spike row is reported iff the partition has a preceding row
(`prev_90d_cost IS NOT NULL`), the previous rolling sum is strictly positive,
and the relative increase exceeds 200%; the reported `pct_change` is the
percentage change rounded to 2 decimal places. Zero-denominator comparisons
are excluded (last concrete instance). Concretely: daily totals 1000 then
2500 on consecutive days give rolling sums 1000 then 3500, reported with
`pct_change = 250`; totals 1000 then 1500 give rolling sums 1000 then 2500
(a 150% increase), not reported. -/
theorem claim_spike_semantics :
    (∀ (l : List (Int × ℚ)) (row : SpikeRow),
      row ∈ spikeRows l ↔
        ∃ p, p ∈ l.zip l.tail ∧ (p.1.2 > 0 ∧ (p.2.2 - p.1.2) / p.1.2 > 2) ∧
          row = spikeOf p)
    ∧ (∀ p : (Int × ℚ) × (Int × ℚ),
        (spikeOf p).pct_change = round2 ((p.2.2 - p.1.2) / p.1.2 * 100))
    ∧ claimSpikes [⟨"11-1111111", 0, 1000⟩, ⟨"11-1111111", 1, 2500⟩]
        = [("Hillwinds Health", ⟨-88, 1, 1000, 3500, 250⟩)]
    ∧ claimSpikes [⟨"11-1111111", 0, 1000⟩, ⟨"11-1111111", 1, 1500⟩] = []
    ∧ claimSpikes [⟨"11-1111111", 0, 0⟩, ⟨"11-1111111", 1, 900⟩] = [] := by
  refine ⟨?_, fun p => rfl, ?_, ?_, ?_⟩
  · intro l row
    rw [spikeRows_eq_filterMap]
    simp only [List.mem_filterMap]
    constructor
    · rintro ⟨p, hp, hf⟩
      by_cases h : p.1.2 > 0 ∧ (p.2.2 - p.1.2) / p.1.2 > 2
      · refine ⟨p, hp, h, ?_⟩
        simp only [h, and_self, if_pos] at hf
        exact (Option.some.inj hf).symm
      · simp [h] at hf
    · rintro ⟨p, hp, h, rfl⟩
      exact ⟨p, hp, by simp [h]⟩
  all_goals
    norm_num [claimSpikes, companyNameMapping, spikeRows, rollingSeries, companyDaily,
      companyDates, dailyTotal, claimCompany, spikeOf, round2, Rat.floor,
      List.insertionSort, List.orderedInsert, List.enum, List.enumFrom, List.dedup,
      List.sum_cons, List.sum_nil, List.flatMap, List.filter, List.find?]

/-! ## C9 -/

/-- C9. For every organization in the expected table that has observed
employees, the report contains the row whose `pct_diff` is
`ROUND(ABS(observed - expected) * 100 / expected, 2)` and whose severity is
Critical above 100, High above 50, Medium above 20, and Low otherwise. -/
theorem roster_mismatch_semantics (emps : List EmpRow) (n : String) (e : Int)
    (hn : (n, e) ∈ rosterExpected) (ho : observedEmployees emps n ≠ 0) :
    (⟨n, e, observedEmployees emps n,
      round2 (|(observedEmployees emps n : ℚ) - (e : ℚ)| * 100 / (e : ℚ)),
      if round2 (|(observedEmployees emps n : ℚ) - (e : ℚ)| * 100 / (e : ℚ)) > 100
        then "Critical"
      else if round2 (|(observedEmployees emps n : ℚ) - (e : ℚ)| * 100 / (e : ℚ)) > 50
        then "High"
      else if round2 (|(observedEmployees emps n : ℚ) - (e : ℚ)| * 100 / (e : ℚ)) > 20
        then "Medium"
      else "Low"⟩ : RosterRow) ∈ rosterMismatch emps := by
  unfold rosterMismatch
  refine List.mem_filterMap.2 ⟨(n, e), hn, ?_⟩
  simp [ho, severityOf]

set_option maxRecDepth 40000 in
/-- C9 witness: expected 60, observed 130 gives `pct_diff = 116.67` and
severity Critical, on 130 concrete distinct employees of Hillwinds Health. -/
theorem roster_mismatch_semantics_witness :
    observedEmployees c9Employees "Hillwinds Health" = 130
    ∧ round2 (|(130 : ℚ) - (60 : ℚ)| * 100 / (60 : ℚ)) = 11667 / 100
    ∧ ((11667 / 100 : ℚ) > 100)
    ∧ (⟨"Hillwinds Health", 60, observedEmployees c9Employees "Hillwinds Health",
        round2 (|(observedEmployees c9Employees "Hillwinds Health" : ℚ) - ((60 : Int) : ℚ)| *
          100 / ((60 : Int) : ℚ)),
        if round2 (|(observedEmployees c9Employees "Hillwinds Health" : ℚ) - ((60 : Int) : ℚ)| *
            100 / ((60 : Int) : ℚ)) > 100 then "Critical"
        else if round2 (|(observedEmployees c9Employees "Hillwinds Health" : ℚ) - ((60 : Int) : ℚ)| *
            100 / ((60 : Int) : ℚ)) > 50 then "High"
        else if round2 (|(observedEmployees c9Employees "Hillwinds Health" : ℚ) - ((60 : Int) : ℚ)| *
            100 / ((60 : Int) : ℚ)) > 20 then "Medium"
        else "Low"⟩ : RosterRow) ∈ rosterMismatch c9Employees :=
  ⟨by decide, by norm_num [round2, Rat.floor], by norm_num,
   roster_mismatch_semantics c9Employees "Hillwinds Health" 60 (by decide) (by decide)⟩

/-! ## C4 -/

/-- C4 counterexample. With watermark 100, a plan row both of whose date
columns lie at or before the watermark is returned by `ingest_data`
unchanged: the plans table is not filtered at all. -/
theorem ingest_data_plans_unfiltered :
    (ingest_data 100 [] [c4Plan] []).2.1 = [c4Plan]
    ∧ c4Plan.start_date = some 40 ∧ ¬ ((100 : Int) < 40)
    ∧ c4Plan.end_date = some 70 ∧ ¬ ((100 : Int) < 70) :=
  ⟨rfl, rfl, by decide, rfl, by decide⟩

/-- C4 (amended). `ingest_data` returns exactly the employee rows with
`start_date` strictly beyond the watermark and exactly the claim rows with
`service_date` strictly beyond it (a missing timestamp never passes), but
the plans table is returned unfiltered. -/
theorem ingest_data_filter_semantics (wm : Int) (employees : List EmpRow)
    (plans : List PlanRow) (claims : List ClaimRow) :
    (∀ e : EmpRow, e ∈ (ingest_data wm employees plans claims).1 ↔
        e ∈ employees ∧ ∃ d, e.start_date = some d ∧ wm < d)
    ∧ (ingest_data wm employees plans claims).2.1 = plans
    ∧ (∀ c : ClaimRow, c ∈ (ingest_data wm employees plans claims).2.2 ↔
        c ∈ claims ∧ ∃ d, c.service_date = some d ∧ wm < d) := by
  refine ⟨?_, rfl, ?_⟩
  · intro e
    simp only [ingest_data, List.mem_filter]
    refine and_congr_right (fun _ => ?_)
    cases hst : e.start_date with
    | none => simp
    | some d => simp
  · intro c
    simp only [ingest_data, List.mem_filter]
    refine and_congr_right (fun _ => ?_)
    cases hst : c.service_date with
    | none => simp
    | some d => simp

/-! ## C7 -/

/-- Rows of the deduplicated store come from the merged input. -/
theorem mem_of_mem_dropDupKeepLast {r : EnrichedRow} :
    ∀ {xs : List EnrichedRow}, r ∈ dropDupKeepLast xs → r ∈ xs := by
  intro xs
  induction xs with
  | nil => simp [dropDupKeepLast]
  | cons x rest ih =>
    simp only [dropDupKeepLast]
    by_cases h : rest.any (fun y => storeKey y = storeKey x)
    · rw [if_pos h]
      exact fun hr => List.mem_cons_of_mem _ (ih hr)
    · rw [if_neg h]
      intro hr
      rcases List.mem_cons.1 hr with rfl | hr'
      · exact List.mem_cons_self _ _
      · exact List.mem_cons_of_mem _ (ih hr')

/-- The deduplicated store has pairwise-distinct `(person_id, start_date)`
keys. -/
theorem nodup_keys_dropDupKeepLast :
    ∀ xs : List EnrichedRow, ((dropDupKeepLast xs).map storeKey).Nodup := by
  intro xs
  induction xs with
  | nil => simp [dropDupKeepLast]
  | cons x rest ih =>
    by_cases h : rest.any (fun y => storeKey y = storeKey x)
    · simpa [dropDupKeepLast, h] using ih
    · simp only [dropDupKeepLast, h, if_neg, Bool.false_eq_true, not_false_iff,
        List.map_cons, List.nodup_cons]
      refine ⟨fun hmem => ?_, ih⟩
      obtain ⟨y, hy, hky⟩ := List.mem_map.1 hmem
      exact h (List.any_eq_true.2
        ⟨y, mem_of_mem_dropDupKeepLast hy, by simp [hky]⟩)

/-- If some suffix row bears `r`'s key, a surviving `r` must come from that
suffix (keep-last discards every earlier occurrence of a key). -/
theorem dropDupKeepLast_append_mem (ys : List EnrichedRow) (r : EnrichedRow)
    (hk : ∃ y ∈ ys, storeKey y = storeKey r) :
    ∀ xs : List EnrichedRow, r ∈ dropDupKeepLast (xs ++ ys) → r ∈ ys := by
  intro xs
  induction xs with
  | nil => exact fun hr => by simpa using mem_of_mem_dropDupKeepLast hr
  | cons x xs ih =>
    intro hr
    simp only [List.cons_append, dropDupKeepLast, List.append_eq] at hr
    by_cases h : (xs ++ ys).any (fun y => storeKey y = storeKey x)
    · rw [if_pos h] at hr
      exact ih hr
    · rw [if_neg h] at hr
      rcases List.mem_cons.1 hr with rfl | hr'
      · exfalso
        obtain ⟨y, hy, hky⟩ := hk
        exact h (List.any_eq_true.2 ⟨y, List.mem_append_right _ hy, by simp [hky]⟩)
      · exact ih hr'

/-- No key is lost by the deduplication. -/
theorem keys_sub_dropDupKeepLast :
    ∀ (xs : List EnrichedRow) (k : String × Option Int),
      k ∈ xs.map storeKey → k ∈ (dropDupKeepLast xs).map storeKey := by
  intro xs
  induction xs with
  | nil => simp
  | cons x rest ih =>
    intro k hk
    rcases List.mem_cons.1 hk with rfl | hk'
    · by_cases h : rest.any (fun y => storeKey y = storeKey x)
      · obtain ⟨y, hy, hky⟩ := List.any_eq_true.1 h
        have : storeKey x ∈ rest.map storeKey :=
          List.mem_map.2 ⟨y, hy, by simpa using hky⟩
        simpa [dropDupKeepLast, h] using ih _ this
      · simp [dropDupKeepLast, h]
    · by_cases h : rest.any (fun y => storeKey y = storeKey x)
      · simpa [dropDupKeepLast, h] using ih _ hk'
      · simp only [dropDupKeepLast, h, if_neg, Bool.false_eq_true, not_false_iff,
          List.map_cons]
        exact List.mem_cons_of_mem _ (ih _ hk')

/-- C7. After a merge the store has at most one row per
`(person_id, start_date)` key; any surviving row whose key occurs among the
incoming rows is itself an incoming row (new rows win ties with old rows);
and every key present on either side is still present after the merge. -/
theorem store_merge_upsert (existing new : List EnrichedRow) :
    ((merge_store existing new).map storeKey).Nodup
    ∧ (∀ r ∈ merge_store existing new, storeKey r ∈ new.map storeKey → r ∈ new)
    ∧ (∀ k ∈ (existing ++ new).map storeKey,
        k ∈ (merge_store existing new).map storeKey) := by
  refine ⟨nodup_keys_dropDupKeepLast _, ?_, ?_⟩
  · intro r hr hthem
    obtain ⟨y, hy, hky⟩ := List.mem_map.1 hthem
    exact dropDupKeepLast_append_mem new r ⟨y, hy, hky⟩ existing hr
  · intro k hk
    exact keys_sub_dropDupKeepLast _ k hk

/-- C7 witness: merging a stored row with an incoming row of the same key and
an updated title leaves exactly the incoming row. -/
theorem store_merge_upsert_witness :
    ((merge_store [c7Old] [c7New]).map storeKey).Nodup
    ∧ c7New ∈ [c7New]
    ∧ merge_store [c7Old] [c7New] = [c7New] :=
  ⟨(store_merge_upsert [c7Old] [c7New]).1,
   (store_merge_upsert [c7Old] [c7New]).2.1 c7New (by decide) (by decide),
   by decide⟩

/-! ## C2 -/

/-- The cache ignores a cons with a different key. -/
theorem cachedIn_cons_of_ne {a : String} {v : ApiResult}
    {cache : List (String × ApiResult)} {pid : String} (h : a ≠ pid) :
    cachedIn ((a, v) :: cache) pid = cachedIn cache pid := by
  simp [cachedIn, List.find?, h]

/-- A key is cached after being consed on. -/
theorem cachedIn_cons_self (a : String) (v : ApiResult)
    (cache : List (String × ApiResult)) :
    cachedIn ((a, v) :: cache) a = true := by
  simp [cachedIn, List.find?]

/-- A key already in the cache is never again among the source
consultations. -/
theorem sourceQueries_count_cached (apiData : List (String × ApiResult))
    (pid : String) :
    ∀ (pids : List String) (cache : List (String × ApiResult)),
      cachedIn cache pid = true → (sourceQueries apiData cache pids).count pid = 0 := by
  intro pids
  induction pids with
  | nil => intro cache _; simp [sourceQueries]
  | cons p ps ih =>
    intro cache h
    simp only [sourceQueries]
    by_cases hc : cachedIn cache p
    · rw [if_pos hc]
      exact ih cache h
    · rw [if_neg hc]
      have hne : p ≠ pid := fun he => hc (he ▸ h)
      cases hf : apiData.find? (fun q => q.1 = p) with
      | some q =>
        have h2 : cachedIn ((p, q.2) :: cache) pid = true := by
          rw [cachedIn_cons_of_ne hne]; exact h
        simp [List.count_cons, hne, ih _ h2]
      | none =>
        simp [List.count_cons, hne, ih cache h]

/-- A key present in the mock source is consulted at most once, from any
starting cache: the first consultation caches it. -/
theorem sourceQueries_count_present (apiData : List (String × ApiResult))
    (pid : String) (hpres : (apiData.find? (fun q => q.1 = pid)).isSome = true) :
    ∀ (pids : List String) (cache : List (String × ApiResult)),
      (sourceQueries apiData cache pids).count pid ≤ 1 := by
  intro pids
  induction pids with
  | nil => intro cache; simp [sourceQueries]
  | cons p ps ih =>
    intro cache
    simp only [sourceQueries]
    by_cases hc : cachedIn cache p
    · rw [if_pos hc]
      exact ih cache
    · rw [if_neg hc]
      by_cases hpp : p = pid
      · subst hpp
        cases hf : apiData.find? (fun q => q.1 = p) with
        | some q =>
          have h0 := sourceQueries_count_cached apiData p ps ((p, q.2) :: cache)
            (cachedIn_cons_self p q.2 cache)
          simp [List.count_cons, h0]
        | none =>
          rw [hf] at hpres
          simp at hpres
      · cases hf : apiData.find? (fun q => q.1 = p) with
        | some q =>
          have := ih ((p, q.2) :: cache)
          simpa [List.count_cons, hpp] using this
        | none =>
          have := ih cache
          simpa [List.count_cons, hpp] using this

/-- A key absent from the mock source is consulted once per row bearing it:
the not-found branch never populates the cache. -/
theorem sourceQueries_count_absent (apiData : List (String × ApiResult))
    (pid : String) (habs : apiData.find? (fun q => q.1 = pid) = none) :
    ∀ (pids : List String) (cache : List (String × ApiResult)),
      cachedIn cache pid = false →
      (sourceQueries apiData cache pids).count pid = pids.count pid := by
  intro pids
  induction pids with
  | nil => intro cache _; simp [sourceQueries]
  | cons p ps ih =>
    intro cache h
    simp only [sourceQueries]
    by_cases hc : cachedIn cache p
    · rw [if_pos hc]
      have hne : p ≠ pid := fun he => by rw [he, h] at hc; cases hc
      simp [List.count_cons, hne, ih cache h]
    · rw [if_neg hc]
      cases hf : apiData.find? (fun q => q.1 = p) with
      | some q =>
        have hne : p ≠ pid := by
          intro he
          rw [he, habs] at hf
          cases hf
        have h2 : cachedIn ((p, q.2) :: cache) pid = false := by
          rw [cachedIn_cons_of_ne hne]; exact h
        simp [List.count_cons, hne, ih _ h2]
      | none =>
        by_cases hpp : p = pid
        · subst hpp
          simp [List.count_cons, ih cache h]
        · simp [List.count_cons, hpp, ih cache h]

/-- C2 counterexample. With an empty mock source, enriching two rows bearing
the same (absent) key consults the source twice: the not-found result is
never cached, so the second row is NOT served from the cache. This refutes
"at most once ... both for keys present in the source and for keys absent
from it". -/
theorem api_cache_absent_key_requeried :
    sourceQueries ([] : List (String × ApiResult)) [] ["p2", "p2"] = ["p2", "p2"]
    ∧ (sourceQueries ([] : List (String × ApiResult)) [] ["p2", "p2"]).count "p2" = 2 :=
  ⟨rfl, by decide⟩

/-- C2 (amended). In one run (initial cache empty), a `person_id` present in
the enrichment source is consulted at most once no matter how many rows bear
it — subsequent rows hit the cache; but a `person_id` absent from the source
is consulted once per row bearing it, because the not-found default is
returned without being cached. -/
theorem api_cache_query_counts (apiData : List (String × ApiResult))
    (pids : List String) (pid : String) :
    ((apiData.find? (fun q => q.1 = pid)).isSome = true →
      (sourceQueries apiData [] pids).count pid ≤ 1)
    ∧ (apiData.find? (fun q => q.1 = pid) = none →
      (sourceQueries apiData [] pids).count pid = pids.count pid) :=
  ⟨fun h => sourceQueries_count_present apiData pid h pids [],
   fun h => sourceQueries_count_absent apiData pid h pids [] rfl⟩

/-- C2 witness: a present key queried three times is consulted at most once;
an absent key queried twice is consulted exactly twice. -/
theorem api_cache_query_counts_witness :
    (sourceQueries apiW [] ["p1", "p1", "p1"]).count "p1" ≤ 1
    ∧ (sourceQueries apiW [] ["p2", "p2"]).count "p2" =
        (["p2", "p2"] : List String).count "p2" :=
  ⟨(api_cache_query_counts apiW ["p1", "p1", "p1"] "p1").1 (by decide),
   (api_cache_query_counts apiW ["p2", "p2"] "p2").2 (by decide)⟩

/-! ## C3 -/

/-- The second component of an `enum` member is a member. -/
theorem snd_mem_of_mem_enum {α : Type} {l : List α} {p : Nat × α}
    (h : p ∈ l.enum) : p.2 ∈ l := by
  have := List.mem_map_of_mem Prod.snd h
  rwa [List.enum_map_snd] at this

/-- Rows of `fillUnknown rs` are rows of `rs` with the title defaulted. -/
theorem mem_fillUnknown {r : CleanRow} {rs : List CleanRow} (h : r ∈ fillUnknown rs) :
    ∃ r0 ∈ rs, r = { r0 with title := some (r0.title.getD "Unknown") } := by
  obtain ⟨r0, h0, he⟩ := List.mem_map.1 h
  exact ⟨r0, h0, he.symm⟩

/-- Rows of `fillTitlesFB rs` are rows of `rs` with only the title changed. -/
theorem mem_fillTitlesFB {r : CleanRow} {rs : List CleanRow}
    (h : r ∈ fillTitlesFB rs) : ∃ r0 ∈ rs, ∃ t, r = { r0 with title := t } := by
  obtain ⟨p, hp, he⟩ := List.mem_map.1 h
  exact ⟨p.2, snd_mem_of_mem_enum hp, _, he.symm⟩

/-- The clean frame in the non-empty case, written out. -/
theorem clean_data_fst (df : List EmpRow) (h : ¬ df.isEmpty = true) :
    (clean_data df).1 =
      fillUnknown (fillTitlesFB (sortRows
        (((dropDuplicates (df.enum.map (fun p => { toEmpRow := p.2, row_id := p.1 }))).filter
            (fun r => emailOk r.email)).filter
          (fun r => r.start_date.isSome)))) := by
  rw [clean_data, if_neg h]

/-- C3 counterexample. `clean_data` on one row with a missing email (and a
valid `start_date` and title) returns that row: a null-email row SURVIVES
cleaning, with an email that matches no address pattern, because
`str.match(..., na=True)` counts missing as valid. This refutes "no row with
a null/missing email survives". -/
theorem clean_data_null_email_survives :
    ((clean_data [c3Row]).1.map (fun r => r.email)) = [none]
    ∧ ((clean_data [c3Row]).1.map (fun r => r.title)) = [some "Engineer"]
    ∧ ((clean_data [c3Row]).1.map (fun r => r.start_date)) = [some 10] :=
  ⟨by decide, by decide, by decide⟩

/-- C3 (amended). Every row of the cleaned relation has an email that is
either missing (`na=True` passes it) or matches the address pattern, a
present (valid) `start_date`, and a non-null title. -/
theorem clean_data_postcondition (df : List EmpRow) (r : CleanRow)
    (hr : r ∈ (clean_data df).1) :
    (r.email = none ∨ ∃ e, r.email = some e ∧ emailMatch e = true)
    ∧ r.start_date.isSome = true
    ∧ r.title.isSome = true := by
  by_cases hdf : df.isEmpty
  · rw [clean_data, if_pos hdf] at hr
    simp at hr
  · rw [clean_data_fst df hdf] at hr
    obtain ⟨r1, h1, he1⟩ := mem_fillUnknown hr
    obtain ⟨r2, h2, t, he2⟩ := mem_fillTitlesFB h1
    have hmem : r2 ∈ ((dropDuplicates
        (df.enum.map (fun p => { toEmpRow := p.2, row_id := p.1 }))).filter
          (fun r => emailOk r.email)).filter (fun r => r.start_date.isSome) :=
      (List.perm_insertionSort _ _).mem_iff.1 h2
    have hstart := (List.mem_filter.1 hmem).2
    have hemail := (List.mem_filter.1 (List.mem_filter.1 hmem).1).2
    subst he1
    subst he2
    refine ⟨?_, by simpa using hstart, by simp⟩
    cases he : r2.email with
    | none => exact Or.inl rfl
    | some e =>
      refine Or.inr ⟨e, rfl, ?_⟩
      rw [he] at hemail
      simpa [emailOk] using hemail

/-- C3 witness: a concrete row with a well-formed email, a valid date and a
missing title survives cleaning with the sentinel title, satisfying the
postcondition. -/
theorem clean_data_postcondition_witness :
    (c3GoodOut.email = none ∨ ∃ e, c3GoodOut.email = some e ∧ emailMatch e = true)
    ∧ c3GoodOut.start_date.isSome = true
    ∧ c3GoodOut.title.isSome = true :=
  clean_data_postcondition [c3GoodRow] c3GoodOut
    (by rw [(by decide : (clean_data [c3GoodRow]).1 = [c3GoodOut])]
        exact List.mem_cons_self _ _)

/-! ## C1 -/

/-- C1. Failing input for the idempotence claim: committed watermark 100, a
non-empty store, and inputs in which NO employee or claim row has a timestamp
beyond the watermark — but a non-empty plans table. Because `ingest_data`
never filters plans, the "no new data" short-circuit (which requires all
three frames empty) is not taken: the store is left identical, yet
`update_high_water_mark` runs and overwrites the watermark (100 becomes 200).
Only when the plans table is empty as well does the run leave the state —
watermark included — unchanged, as the claim demands (last conjunct). -/
theorem run_etl_stale_rerun_overwrites_watermark :
    (run_etl 200 [("hillwinds.com", "11-1111111")] [] c1Employees c1Plans c1Claims
        c1State).store = c1State.store
    ∧ (run_etl 200 [("hillwinds.com", "11-1111111")] [] c1Employees c1Plans c1Claims
        c1State).watermark = some 200
    ∧ c1State.watermark = some 100
    ∧ run_etl 200 [("hillwinds.com", "11-1111111")] [] c1Employees [] c1Claims
        c1State = c1State :=
  ⟨by decide, by decide, rfl, by decide⟩

/-! ## C10 -/

/-- C10 counterexample. A first run whose ingested frames are not all empty
but whose CLEANED frame is empty (every row was dropped by validation)
reaches `save_outputs` with no store present: `enrich_data` returns the empty
frame unprojected (line 235) and line 374 persists it, so the created store
DOES contain the `end_date` column. This refutes "for every run, the
persisted canonical store contains no end_date column". -/
theorem store_end_date_first_run_empty_clean :
    "end_date" ∈ (pipelineColumns [(true, cleanedFrameColumns)]).getD [] := by
  decide

/-- A column outside `FINAL_COLUMNS` does not survive the enrichment
projection of a non-empty frame. -/
theorem enrichColumns_no_col (c : String) (hF : c ∉ FINAL_COLUMNS)
    (cols : List String) : c ∉ enrichColumns false cols := by
  intro hmem
  rw [enrichColumns] at hmem
  simp only [Bool.false_eq_true, if_false] at hmem
  exact hF (List.mem_filter.1 hmem).1

/-- The merged schema contains only columns present on one of the two
sides. -/
theorem mergedColumns_no_col {c : String} {ex new : List String}
    (hex : c ∉ ex) (hnew : c ∉ new) : c ∉ mergedColumns ex new := by
  intro hmem
  rw [mergedColumns] at hmem
  have h2 : c ∈ unionColumns ex new := by
    simpa using (List.mem_filter.1 hmem).2
  rw [unionColumns] at h2
  rcases List.mem_append.1 h2 with h | h
  · exact hex h
  · exact hnew (List.mem_filter.1 h).1

/-- Once the store's schema avoids a non-`FINAL_COLUMNS` column, every later
run preserves that: an empty-clean run leaves the store untouched, and a
merging run only adds projected columns. -/
theorem pipelineColumns_fold_no_col (c : String) (hF : c ∉ FINAL_COLUMNS) :
    ∀ (rest : List (Bool × List String)) (ex : List String), c ∉ ex →
      c ∉ (rest.foldl (fun st r => saveColumns st r.1 (enrichColumns r.1 r.2))
            (some ex)).getD [] := by
  intro rest
  induction rest with
  | nil => intro ex h; simpa using h
  | cons r rs ih =>
    intro ex h
    rw [List.foldl_cons]
    cases hb : r.1 with
    | true => exact ih ex h
    | false => exact ih _ (mergedColumns_no_col h (enrichColumns_no_col c hF r.2))

/-- C10 (amended). The enrichment projection and the canonical merge order
both omit `end_date` (and `last_updated`); consequently, on any run sequence
whose first store-creating run has a non-empty cleaned relation, the
persisted store never contains an `end_date` (or `last_updated`) column —
the exception being the counterexample's empty-clean first run. -/
theorem store_no_end_date_column (cols : List String)
    (rest : List (Bool × List String)) :
    "end_date" ∉ (pipelineColumns ((false, cols) :: rest)).getD []
    ∧ "last_updated" ∉ (pipelineColumns ((false, cols) :: rest)).getD [] := by
  constructor <;>
  · rw [pipelineColumns, List.foldl_cons]
    exact pipelineColumns_fold_no_col _ (by decide) rest _
      (enrichColumns_no_col _ (by decide) cols)

/-- C10 witness: a single-run store created from a non-empty cleaned frame
has neither column. -/
theorem store_no_end_date_column_witness :
    "end_date" ∉ (pipelineColumns [(false, cleanedFrameColumns)]).getD []
    ∧ "last_updated" ∉ (pipelineColumns [(false, cleanedFrameColumns)]).getD [] :=
  store_no_end_date_column cleanedFrameColumns []
